import Mathlib

/-!
Verification of the key-derivation engine, hex codec, key-value parser and
title-key loader of `source/hactool_processor.keys.cpp`.

The development is a shallow embedding of that translation unit:

* `KeySet` mirrors the `struct KeySet` (lines 27-77); every byte-array field
  becomes a `Block` (a list of byte values) and every generation-indexed
  array becomes a function `Nat → Block`.
* The AES-128-ECB single-block decryption primitive
  (`AesDecryptor128::DecryptBlock`) is outside this translation unit; it is
  taken as an abstract parameter `dec : Block → Block → Block`
  (`dec key src` is the decryption of `src` under `key`).
* The generation bounds `pkg1::KeyGeneration_6_2_0` and
  `pkg1::KeyGeneration_Max` come from an external header
  (`exosphere/pkg1.hpp`, not part of this repository); they are taken as
  abstract parameters `g62 gmax : Nat`, with `pkg1::KeyGeneration_1_0_0 = 0`
  (the first generation; all generation arrays are indexed from 0).
-/

namespace Hac2l

/-- A fixed-size byte buffer (AES key / block, keyblob, ...), modelled as the
list of its byte values. -/
abbrev Block := List Nat

/-- `IsZero(data, size)` (lines 81-91): a buffer is "unset" iff every byte of
it is zero (the zero-sentinel convention). -/
def IsZero (b : Block) : Bool := b.all (fun x => x == 0)

/-- The `struct KeySet` of lines 27-77, field for field and in source order.
Generation-indexed arrays are functions from the generation index. -/
structure KeySet where
  secure_boot_key : Block
  tsec_key : Block
  device_key : Block
  keyblob_keys : Nat → Block
  keyblob_mac_keys : Nat → Block
  encrypted_keyblobs : Nat → Block
  mariko_aes_class_keys : Nat → Block
  mariko_kek : Block
  mariko_bek : Block
  keyblobs : Nat → Block
  keyblob_key_sources : Nat → Block
  keyblob_mac_key_source : Block
  tsec_root_kek : Block
  package1_mac_kek : Block
  package1_kek : Block
  tsec_auth_signatures : Nat → Block
  tsec_root_keys : Nat → Block
  master_kek_sources : Nat → Block
  mariko_master_kek_sources : Nat → Block
  master_keks : Nat → Block
  master_key_source : Block
  master_keys : Nat → Block
  package1_mac_keys : Nat → Block
  package1_keys : Nat → Block
  package2_keys : Nat → Block
  package2_key_source : Block
  per_console_key_source : Block
  aes_kek_generation_source : Block
  aes_key_generation_source : Block
  key_area_key_application_source : Block
  key_area_key_ocean_source : Block
  key_area_key_system_source : Block
  titlekek_source : Block
  header_kek_source : Block
  sd_card_kek_source : Block
  sd_card_nca_key_source : Block
  sd_card_save_key_source : Block
  save_mac_kek_source : Block
  save_mac_key_source : Block
  header_key_source : Block
  header_key : Block
  titlekeks : Nat → Block
  key_area_keys : Nat → Nat → Block
  xci_header_key : Block
  save_mac_key : Block
  sd_card_keys : Nat → Block
  nca_hdr_fixed_key_moduli : Nat → Block
  acid_fixed_key_moduli : Nat → Block
  package2_fixed_key_modulus : Block

/-!
`DeriveKeys` (lines 119-189).  Every loop of the function touches, for a
given `gen`, only the slots indexed by that `gen` (plus `device_key`, written
only at `gen = KeyGeneration_1_0_0 = 0`), and no loop reads a slot that the
same loop writes at a different index; so each loop is translated pointwise
in `gen` as one definition per written slot, and the loops are sequenced by
function composition.  The loops at lines 142-150 (keyblob cmac/decrypt) and
163-168 (tsec-rooted derivation), and line 170, contain only `TODO` comments
and write nothing, so they contribute no definition.
-/

/-- Loop at lines 124-139, the write at lines 129-130: for
`gen ∈ [KeyGeneration_1_0_0, KeyGeneration_6_2_0)`, if none of
`secure_boot_key`, `tsec_key`, `keyblob_key_sources[gen]` is unset, then
`keyblob_keys[gen]` is decrypted first under `tsec_key`, then under
`secure_boot_key` (in place). -/
def derivedKeyblobKeys (dec : Block → Block → Block) (g62 : Nat) (ks : KeySet)
    (g : Nat) : Block :=
  if g < g62 ∧ IsZero ks.secure_boot_key = false ∧ IsZero ks.tsec_key = false ∧
      IsZero (ks.keyblob_key_sources g) = false then
    dec ks.secure_boot_key (dec ks.tsec_key (ks.keyblob_key_sources g))
  else
    ks.keyblob_keys g

/-- Same loop, the write at line 134: reached only when the three
`SKIP_IF_UNSET`s of lines 125-127 did not `continue` and
`keyblob_mac_key_source` is also set (line 132); uses the `keyblob_keys[gen]`
value just written at lines 129-130. -/
def derivedKeyblobMacKeys (dec : Block → Block → Block) (g62 : Nat)
    (ks : KeySet) (g : Nat) : Block :=
  if g < g62 ∧ IsZero ks.secure_boot_key = false ∧ IsZero ks.tsec_key = false ∧
      IsZero (ks.keyblob_key_sources g) = false ∧
      IsZero ks.keyblob_mac_key_source = false then
    dec (dec ks.secure_boot_key (dec ks.tsec_key (ks.keyblob_key_sources g)))
      ks.keyblob_mac_key_source
  else
    ks.keyblob_mac_keys g

/-- Same loop, the write at line 137: reached only in the
`gen = KeyGeneration_1_0_0 = 0` iteration (so the loop must be non-empty,
`0 < g62`), after the three `continue` guards of lines 125-127 and the one of
line 132, and only if `per_console_key_source` is set (line 136). -/
def derivedDeviceKey (dec : Block → Block → Block) (g62 : Nat)
    (ks : KeySet) : Block :=
  if 0 < g62 ∧ IsZero ks.secure_boot_key = false ∧ IsZero ks.tsec_key = false ∧
      IsZero (ks.keyblob_key_sources 0) = false ∧
      IsZero ks.keyblob_mac_key_source = false ∧
      IsZero ks.per_console_key_source = false then
    dec (dec ks.secure_boot_key (dec ks.tsec_key (ks.keyblob_key_sources 0)))
      ks.per_console_key_source
  else
    ks.device_key

/-- Loop at lines 153-161, write at line 155: `package1_keys[gen]` is set from
bytes `[0x80, 0x90)` of `keyblobs[gen]` when that span is non-zero. -/
def derivedPackage1Keys (g62 : Nat) (ks : KeySet) (g : Nat) : Block :=
  if g < g62 ∧ IsZero (((ks.keyblobs g).drop 0x80).take 0x10) = false then
    ((ks.keyblobs g).drop 0x80).take 0x10
  else
    ks.package1_keys g

/-- Loop at lines 153-161, write at line 159: `master_keks[gen]` is set from
bytes `[0x00, 0x10)` of `keyblobs[gen]` when that span is non-zero. -/
def derivedMasterKeksLegacy (g62 : Nat) (ks : KeySet) (g : Nat) : Block :=
  if g < g62 ∧ IsZero ((ks.keyblobs g).take 0x10) = false then
    (ks.keyblobs g).take 0x10
  else
    ks.master_keks g

/-- Loop at lines 172-178, running after the legacy extraction: for
`gen ∈ [KeyGeneration_1_0_0, KeyGeneration_Max)`, if neither `mariko_kek` nor
`mariko_master_kek_sources[gen]` is unset, `master_keks[gen]` is overwritten
with the Mariko-path value; otherwise the value left by lines 153-161
stands. -/
def derivedMasterKeks (dec : Block → Block → Block) (g62 gmax : Nat)
    (ks : KeySet) (g : Nat) : Block :=
  if g < gmax ∧ IsZero ks.mariko_kek = false ∧
      IsZero (ks.mariko_master_kek_sources g) = false then
    dec ks.mariko_kek (ks.mariko_master_kek_sources g)
  else
    derivedMasterKeksLegacy g62 ks g

/-- Loop at lines 181-186: `master_keys[gen]` is derived from the final
`master_keks[gen]` (as left by the two previous loops) and
`master_key_source`, when both are set. -/
def derivedMasterKeys (dec : Block → Block → Block) (g62 gmax : Nat)
    (ks : KeySet) (g : Nat) : Block :=
  if g < gmax ∧ IsZero ks.master_key_source = false ∧
      IsZero (derivedMasterKeks dec g62 gmax ks g) = false then
    dec (derivedMasterKeks dec g62 gmax ks g) ks.master_key_source
  else
    ks.master_keys g

/-- `DeriveKeys` (lines 119-189): the whole engine, writing exactly the six
slots its loops store to and leaving every other field of the `KeySet`
untouched. -/
def DeriveKeys (dec : Block → Block → Block) (g62 gmax : Nat)
    (ks : KeySet) : KeySet :=
  { ks with
    keyblob_keys := derivedKeyblobKeys dec g62 ks
    keyblob_mac_keys := derivedKeyblobMacKeys dec g62 ks
    device_key := derivedDeviceKey dec g62 ks
    package1_keys := derivedPackage1Keys g62 ks
    master_keks := derivedMasterKeks dec g62 gmax ks
    master_keys := derivedMasterKeys dec g62 gmax ks }

/-- The all-zero ("unset") 16-byte block. -/
def zeroBlock : Block := List.replicate 16 0

/-- A non-zero 16-byte block used by concrete witnesses. -/
def oneBlock : Block := List.replicate 16 1

/-- A second non-zero 16-byte block used by concrete witnesses. -/
def twoBlock : Block := List.replicate 16 2

/-- A `KeySet` with every slot unset, the state a zero-initialized
`g_keyset` (line 79) is in before any key file is loaded. -/
def emptyKeySet : KeySet where
  secure_boot_key := zeroBlock
  tsec_key := zeroBlock
  device_key := zeroBlock
  keyblob_keys := fun _ => zeroBlock
  keyblob_mac_keys := fun _ => zeroBlock
  encrypted_keyblobs := fun _ => List.replicate 0xB0 0
  mariko_aes_class_keys := fun _ => zeroBlock
  mariko_kek := zeroBlock
  mariko_bek := zeroBlock
  keyblobs := fun _ => List.replicate 0x90 0
  keyblob_key_sources := fun _ => zeroBlock
  keyblob_mac_key_source := zeroBlock
  tsec_root_kek := zeroBlock
  package1_mac_kek := zeroBlock
  package1_kek := zeroBlock
  tsec_auth_signatures := fun _ => zeroBlock
  tsec_root_keys := fun _ => zeroBlock
  master_kek_sources := fun _ => zeroBlock
  mariko_master_kek_sources := fun _ => zeroBlock
  master_keks := fun _ => zeroBlock
  master_key_source := zeroBlock
  master_keys := fun _ => zeroBlock
  package1_mac_keys := fun _ => zeroBlock
  package1_keys := fun _ => zeroBlock
  package2_keys := fun _ => zeroBlock
  package2_key_source := zeroBlock
  per_console_key_source := zeroBlock
  aes_kek_generation_source := zeroBlock
  aes_key_generation_source := zeroBlock
  key_area_key_application_source := zeroBlock
  key_area_key_ocean_source := zeroBlock
  key_area_key_system_source := zeroBlock
  titlekek_source := zeroBlock
  header_kek_source := zeroBlock
  sd_card_kek_source := zeroBlock
  sd_card_nca_key_source := List.replicate 0x20 0
  sd_card_save_key_source := List.replicate 0x20 0
  save_mac_kek_source := zeroBlock
  save_mac_key_source := zeroBlock
  header_key_source := zeroBlock
  header_key := zeroBlock
  titlekeks := fun _ => zeroBlock
  key_area_keys := fun _ _ => zeroBlock
  xci_header_key := zeroBlock
  save_mac_key := zeroBlock
  sd_card_keys := fun _ => zeroBlock
  nca_hdr_fixed_key_moduli := fun _ => List.replicate 0x100 0
  acid_fixed_key_moduli := fun _ => List.replicate 0x100 0
  package2_fixed_key_modulus := List.replicate 0x100 0

/-- A concrete, injective-enough block cipher stand-in used only by witness
and counterexample theorems: the "decryption" of `s` under `k` tags the two
inputs apart so distinct derivations stay distinct, and is never all-zero. -/
def witDec (k s : Block) : Block := 1 :: k ++ s

/-!
Hex codec (`DecodeHex`, lines 191-212), key-value parser
(`ProcessKeyValue` / `ProcessKeyValueFile`, lines 342-449) and title-key
loader (`LoadTitleKey`, lines 214-249).  Buffers and C strings are modelled
as `List Char`; a C string handed to `strlen`-style code is read up to its
first NUL.  For `DecodeHex`, whose loop reads `2 * size` characters from
`src` regardless of where the string ends, the list models the memory
starting at `src`; reads beyond the end of the list yield NUL (i.e. memory
past the modelled window is taken to be zero bytes).
-/

/-- The NUL character. -/
def nul : Char := Char.ofNat 0

/-- `strlen(src)` on the memory window `buf`: the number of characters
before the first NUL. -/
def cstrlen (buf : List Char) : Nat :=
  (buf.takeWhile (fun c => c ≠ nul)).length

/-- The hex-digit test of `ProcessKeyValue` (lines 351-357) and
`LoadTitleKey` (lines 226-232): `0-9`, `a-f` or `A-F`. -/
def isHexDigit (c : Char) : Bool :=
  ('0' ≤ c && c ≤ '9') || ('a' ≤ c && c ≤ 'f') || ('A' ≤ c && c ≤ 'F')

/-- `HexToI` (lines 197-207): the value of one hex digit, with every
non-hex character mapped to 0. -/
def hexToI (c : Char) : Nat :=
  if 'a' ≤ c ∧ c ≤ 'f' then 0xA + (c.toNat - 'a'.toNat)
  else if 'A' ≤ c ∧ c ≤ 'F' then 0xA + (c.toNat - 'A'.toNat)
  else if '0' ≤ c ∧ c ≤ '9' then 0x0 + (c.toNat - '0'.toNat)
  else 0

/-- The output loop of `DecodeHex` (lines 209-211): after `n` iterations,
`dst[i] = (HexToI(src[2i]) << 4) | HexToI(src[2i+1])` for `i < n` (both
digit values are below 16, so shift-or is `16 * hi + lo`).  The loop runs
over `i < size` unconditionally: characters are fetched from the memory
window even past the string's NUL terminator. -/
def decodeHexBytes (buf : List Char) : Nat → List Nat
  | 0 => []
  | n + 1 =>
    decodeHexBytes buf n ++
      [16 * hexToI (buf.getD (2 * n) nul) + hexToI (buf.getD (2 * n + 1) nul)]

/-- `DecodeHex(dst, src, size)` (lines 191-212): the first component records
whether the length-mismatch warning of lines 193-195 fired (`strlen(src) !=
2 * size`); the second is the decoded byte buffer. -/
def DecodeHex (buf : List Char) (size : Nat) : Bool × List Nat :=
  (cstrlen buf != 2 * size, decodeHexBytes buf size)

/-- `LoadTitleKey` (lines 214-249), with the key manager registration
abstracted into the return value: `none` means the function returned before
`km.Register` (lines 216-232); `some (w, rid, akey)` means
`Register(rid, akey)` was reached, `w` recording whether the value-length
warning of lines 234-237 fired.  `key` and `value` are the two C strings
(NUL-free, as produced by `ProcessKeyValueFile`). -/
def LoadTitleKey (key value : List Char) : Option (Bool × List Nat × List Nat) :=
  if key.length % 2 != 0 then none
  else if key.length != 32 then none
  else if key.any (fun c => !isHexDigit c) then none
  else
    some (value.length != 32, (DecodeHex key 16).2, (DecodeHex value 16).2)

/-!
The key-value parser `ProcessKeyValueFile` (lines 362-449) together with the
per-pair validation `ProcessKeyValue` (lines 342-360).  The C code scans a
mutable buffer with offsets and writes NUL terminators in place; every NUL
it writes either terminates an emitted token or lands on a separator
character that the skip loop of line 367 would consume anyway, so the
in-place mutation is modelled by splitting the immutable buffer into the
token and the remaining suffix.
-/

/-- Line 367: filler characters skipped between entries. -/
def isSkipChar (c : Char) : Bool :=
  c = '\n' || c = '\r' || c = nul || c = ' ' || c = '\t'

/-- Line 376: the characters that terminate the key scan. -/
def isKeyDelim (c : Char) : Bool :=
  c = ' ' || c = ',' || c = '\t' || c = '='

/-- Lines 410 and 427: spaces and tabs skipped around the delimiter and
before the value. -/
def isSpaceTab (c : Char) : Bool := c = ' ' || c = '\t'

/-- Line 386: in-place case folding of an uppercase key character. -/
def foldChar (c : Char) : Char :=
  Char.ofNat ('a'.toNat + (c.toNat - 'A'.toNat))

/-- Line 390: the characters legal in a key after case folding. -/
def isKeyChar (c : Char) : Bool :=
  c = '_' || ('0' ≤ c && c ≤ '9') || ('a' ≤ c && c ≤ 'z')

/-- Line 439: the characters that terminate the value scan (note: the NUL
and comma characters do NOT terminate a value). -/
def isValEnd (c : Char) : Bool :=
  c = '\n' || c = '\r' || c = ' ' || c = '\t'

/-- The key scan (lines 373-402).  Checks are in source order for each
character: a delimiter ends the key (line 376, the delimiter is left in the
returned suffix); a NUL aborts the file (lines 380-383); an uppercase letter
is folded and kept (lines 385-388); any character outside `[a-z0-9_]` aborts
the file (lines 390-394); running off the end of the buffer is the
truncated-pair abort (lines 398-402).  `none` is any of the aborts. -/
def scanKey : List Char → Option (List Char × List Char)
  | [] => none
  | c :: cs =>
    if isKeyDelim c then some ([], c :: cs)
    else if c = nul then none
    else if 'A' ≤ c ∧ c ≤ 'Z' then
      match scanKey cs with
      | none => none
      | some (k, r) => some (foldChar c :: k, r)
    else if isKeyChar c then
      match scanKey cs with
      | none => none
      | some (k, r) => some (c :: k, r)
    else none

/-- The delimiter consumption (lines 404-418): a direct `=` or `,` is
consumed; otherwise (the key ended at a space or tab) spaces and tabs are
skipped and exactly one `=` or `,` is required, anything else — including
end of buffer — being the malformed-pair abort (`none`). -/
def consumeDelim : List Char → Option (List Char)
  | [] => none
  | d :: rs =>
    if d = '=' || d = ',' then some rs
    else
      match rs.dropWhile isSpaceTab with
      | [] => none
      | e :: es => if e = '=' || e = ',' then some es else none

/-- `ProcessKeyValue`'s validation (lines 345-357): the value must have even
length and be entirely hex digits; otherwise the pair is skipped (with a
warning) but the file continues. -/
def validValue (v : List Char) : Bool :=
  v.length % 2 == 0 && v.all isHexDigit

/-- One iteration of the `while (ofs < file_size)` loop of
`ProcessKeyValueFile`. -/
inductive PStep where
  /-- The buffer is exhausted: the loop ends. -/
  | done : PStep
  /-- A file-scoped abort: one of the `return`s at lines 381, 392, 400, 414,
  422, 432 — nothing further is emitted from this buffer. -/
  | abort : PStep
  /-- A filler character was skipped (lines 367-370). -/
  | skipChar (rest : List Char) : PStep
  /-- A complete key/value entry was scanned; `ok` is `ProcessKeyValue`'s
  verdict: the pair is emitted iff `ok`, and the loop continues at `rest`
  either way. -/
  | pair (k v : List Char) (ok : Bool) (rest : List Char) : PStep

/-- One iteration of the parser loop (lines 365-448): skip filler, scan the
key, consume the delimiter, reject an empty key (line 421), skip spaces
(lines 427-429), reject a missing value (line 431), scan the value span
(lines 436-443; the span becomes a C string, read up to any embedded NUL),
and validate it.  The value terminator, when present, is one of the filler
characters of line 367, so leaving it in `rest` reproduces the in-place
NUL-then-skip behaviour. -/
def parseStep (buf : List Char) : PStep :=
  match buf with
  | [] => .done
  | c :: cs =>
    if isSkipChar c then .skipChar cs
    else
      match scanKey (c :: cs) with
      | none => .abort
      | some (k, rest) =>
        match consumeDelim rest with
        | none => .abort
        | some rest2 =>
          if k = [] then .abort
          else
            match rest2.dropWhile isSpaceTab with
            | [] => .abort
            | v0 :: vs =>
              let v := (((v0 :: vs).takeWhile (fun x => !isValEnd x)).takeWhile
                (fun x => x ≠ nul))
              .pair k v (validValue v)
                ((v0 :: vs).dropWhile (fun x => !isValEnd x))

/-- The parser loop, driven by a fuel counter (each iteration consumes at
least one character, so `buf.length` fuel always suffices; see
`parseKVGo_congr`). -/
def parseKVGo : Nat → List Char → List (List Char × List Char)
  | 0, _ => []
  | fuel + 1, buf =>
    match parseStep buf with
    | .done => []
    | .abort => []
    | .skipChar r => parseKVGo fuel r
    | .pair k v true r => (k, v) :: parseKVGo fuel r
    | .pair _ _ false r => parseKVGo fuel r

/-- `ProcessKeyValueFile(path, buf, file_size, f)` (lines 362-449): the list
of `(key, value)` pairs handed to `f`, in order. -/
def parseKVFile (buf : List Char) : List (List Char × List Char) :=
  parseKVGo buf.length buf

/-- C1: for every generation `gen ∈ [Gen_1_0_0, Gen_6_2_0)` with
`secure_boot_key`, `tsec_key` and `keyblob_key_source[gen]` all non-zero,
`DeriveKeys` sets `keyblob_key[gen]` to
`Decrypt(secure_boot_key, Decrypt(tsec_key, keyblob_key_source[gen]))`:
the `tsec_key` pass first, the `secure_boot_key` pass second. -/
theorem keyblob_key_double_decrypt (dec : Block → Block → Block)
    (g62 gmax : Nat) (ks : KeySet) (g : Nat) (hg : g < g62)
    (h1 : IsZero ks.secure_boot_key = false)
    (h2 : IsZero ks.tsec_key = false)
    (h3 : IsZero (ks.keyblob_key_sources g) = false) :
    (DeriveKeys dec g62 gmax ks).keyblob_keys g =
      dec ks.secure_boot_key (dec ks.tsec_key (ks.keyblob_key_sources g)) := by
  simp only [DeriveKeys, derivedKeyblobKeys]
  rw [if_pos ⟨hg, h1, h2, h3⟩]

/-- Witness for C1 at a concrete input: generation 0 with all three inputs
set to concrete non-zero blocks. -/
theorem keyblob_key_double_decrypt_witness :
    (0 : Nat) < 6 ∧
      (DeriveKeys witDec 6 19
          { emptyKeySet with
            secure_boot_key := oneBlock
            tsec_key := twoBlock
            keyblob_key_sources := fun _ => oneBlock }).keyblob_keys 0 =
        witDec oneBlock (witDec twoBlock oneBlock) :=
  ⟨by decide,
    keyblob_key_double_decrypt witDec 6 19 _ 0 (by decide) (by decide)
      (by decide) (by decide)⟩

/-- C2: for every generation `gen` (below `Gen_Max`), if `mariko_kek` and
`mariko_master_kek_source[gen]` are both non-zero then after `DeriveKeys`
completes, `master_kek[gen]` equals
`Decrypt(mariko_kek, mariko_master_kek_source[gen])` — the Mariko stage runs
after the legacy keyblob extraction and overwrites whatever that stage
stored, for every starting `KeySet`. -/
theorem master_kek_mariko_overwrite (dec : Block → Block → Block)
    (g62 gmax : Nat) (ks : KeySet) (g : Nat) (hg : g < gmax)
    (h1 : IsZero ks.mariko_kek = false)
    (h2 : IsZero (ks.mariko_master_kek_sources g) = false) :
    (DeriveKeys dec g62 gmax ks).master_keks g =
      dec ks.mariko_kek (ks.mariko_master_kek_sources g) := by
  simp only [DeriveKeys, derivedMasterKeks]
  rw [if_pos ⟨hg, h1, h2⟩]

/-- Witness for C2 at a concrete input, with a non-zero `keyblobs[0]` so the
legacy extraction stage stores a value that the Mariko stage then
overwrites. -/
theorem master_kek_mariko_overwrite_witness :
    (0 : Nat) < 19 ∧
      (DeriveKeys witDec 6 19
          { emptyKeySet with
            keyblobs := fun _ => List.replicate 0x90 3
            mariko_kek := oneBlock
            mariko_master_kek_sources := fun _ => twoBlock }).master_keks 0 =
        witDec oneBlock twoBlock :=
  ⟨by decide,
    master_kek_mariko_overwrite witDec 6 19 _ 0 (by decide) (by decide)
      (by decide)⟩

/-- C7: if `master_key_source` is unset (all-zero) when `DeriveKeys` runs,
every `master_key[gen]` slot is left unchanged, whatever the other inputs. -/
theorem master_keys_unset_source_unchanged (dec : Block → Block → Block)
    (g62 gmax : Nat) (ks : KeySet)
    (h : IsZero ks.master_key_source = true) (g : Nat) :
    (DeriveKeys dec g62 gmax ks).master_keys g = ks.master_keys g := by
  simp only [DeriveKeys, derivedMasterKeys]
  rw [if_neg]
  rintro ⟨-, hc, -⟩
  rw [h] at hc
  exact absurd hc (by decide)

/-- Witness for C7 at a concrete input: every other root input is present
(so `master_keks[0]` is derivable), but `master_key_source` is unset and
`master_keys 0` stays untouched. -/
theorem master_keys_unset_source_unchanged_witness :
    IsZero
        ({ emptyKeySet with
            secure_boot_key := oneBlock
            tsec_key := twoBlock
            keyblob_key_sources := fun _ => oneBlock
            mariko_kek := oneBlock
            mariko_master_kek_sources := fun _ => twoBlock
            master_keys := fun _ => oneBlock } : KeySet).master_key_source =
        true ∧
      (DeriveKeys witDec 6 19
          { emptyKeySet with
            secure_boot_key := oneBlock
            tsec_key := twoBlock
            keyblob_key_sources := fun _ => oneBlock
            mariko_kek := oneBlock
            mariko_master_kek_sources := fun _ => twoBlock
            master_keys := fun _ => oneBlock }).master_keys 0 = oneBlock :=
  ⟨by decide,
    master_keys_unset_source_unchanged witDec 6 19 _ (by decide) 0⟩

/-- C6, counterexample: a `KeySet` whose `keyblob_keys[0]` is available
(e.g. supplied directly by a key file through `LoadExternalKey`, line 288)
and whose `keyblob_mac_key_source` is set, but whose `secure_boot_key` is
unset.  The loop iteration `continue`s at line 125 before ever reaching the
MAC-key derivation of line 134, so `keyblob_mac_keys[0]` stays unset instead
of becoming `Decrypt(keyblob_key[0], keyblob_mac_key_source)`. -/
theorem keyblob_mac_key_not_just_source_gated :
    IsZero
        ({ emptyKeySet with
            keyblob_keys := fun _ => oneBlock
            keyblob_mac_key_source := twoBlock
            tsec_key := oneBlock
            keyblob_key_sources := fun _ => oneBlock } : KeySet).keyblob_mac_key_source
          = false ∧
      IsZero
        ({ emptyKeySet with
            keyblob_keys := fun _ => oneBlock
            keyblob_mac_key_source := twoBlock
            tsec_key := oneBlock
            keyblob_key_sources := fun _ => oneBlock } : KeySet).secure_boot_key
          = true ∧
      (DeriveKeys witDec 6 19
          { emptyKeySet with
            keyblob_keys := fun _ => oneBlock
            keyblob_mac_key_source := twoBlock
            tsec_key := oneBlock
            keyblob_key_sources := fun _ => oneBlock }).keyblob_mac_keys 0 ≠
        witDec
          (({ emptyKeySet with
              keyblob_keys := fun _ => oneBlock
              keyblob_mac_key_source := twoBlock
              tsec_key := oneBlock
              keyblob_key_sources := fun _ => oneBlock } : KeySet).keyblob_keys 0)
          twoBlock := by
  refine ⟨by decide, by decide, ?_⟩
  decide

/-- C6 as amended: for `gen ∈ [Gen_1_0_0, Gen_6_2_0)`, stage S2 sets
`keyblob_mac_key[gen] = Decrypt(keyblob_key[gen], keyblob_mac_key_source)`
(with `keyblob_key[gen]` the value S1 just derived), but it runs only when
`secure_boot_key`, `tsec_key`, `keyblob_key_source[gen]` and
`keyblob_mac_key_source` are all non-zero: the three S1 inputs gate it too,
because their `continue`s skip the rest of the loop iteration. -/
theorem keyblob_mac_key_derivation (dec : Block → Block → Block)
    (g62 gmax : Nat) (ks : KeySet) (g : Nat) (hg : g < g62)
    (h1 : IsZero ks.secure_boot_key = false)
    (h2 : IsZero ks.tsec_key = false)
    (h3 : IsZero (ks.keyblob_key_sources g) = false)
    (h4 : IsZero ks.keyblob_mac_key_source = false) :
    (DeriveKeys dec g62 gmax ks).keyblob_mac_keys g =
      dec ((DeriveKeys dec g62 gmax ks).keyblob_keys g)
        ks.keyblob_mac_key_source := by
  simp only [DeriveKeys, derivedKeyblobMacKeys, derivedKeyblobKeys]
  rw [if_pos ⟨hg, h1, h2, h3, h4⟩, if_pos ⟨hg, h1, h2, h3⟩]

/-- Witness for the amended C6 at a concrete input. -/
theorem keyblob_mac_key_derivation_witness :
    (0 : Nat) < 6 ∧
      (DeriveKeys witDec 6 19
          { emptyKeySet with
            secure_boot_key := oneBlock
            tsec_key := twoBlock
            keyblob_key_sources := fun _ => oneBlock
            keyblob_mac_key_source := twoBlock }).keyblob_mac_keys 0 =
        witDec
          ((DeriveKeys witDec 6 19
              { emptyKeySet with
                secure_boot_key := oneBlock
                tsec_key := twoBlock
                keyblob_key_sources := fun _ => oneBlock
                keyblob_mac_key_source := twoBlock }).keyblob_keys 0)
          twoBlock :=
  ⟨by decide,
    keyblob_mac_key_derivation witDec 6 19 _ 0 (by decide) (by decide)
      (by decide) (by decide) (by decide)⟩

/-- C9: `DeriveKeys` writes only `keyblob_keys`, `keyblob_mac_keys`,
`device_key`, `package1_keys`, `master_keks` and `master_keys`; every one of
the other forty-three fields of the `KeySet` is returned unchanged. -/
theorem derive_keys_frame (dec : Block → Block → Block) (g62 gmax : Nat)
    (ks : KeySet) :
    (DeriveKeys dec g62 gmax ks).secure_boot_key = ks.secure_boot_key ∧
    (DeriveKeys dec g62 gmax ks).tsec_key = ks.tsec_key ∧
    (DeriveKeys dec g62 gmax ks).encrypted_keyblobs = ks.encrypted_keyblobs ∧
    (DeriveKeys dec g62 gmax ks).mariko_aes_class_keys = ks.mariko_aes_class_keys ∧
    (DeriveKeys dec g62 gmax ks).mariko_kek = ks.mariko_kek ∧
    (DeriveKeys dec g62 gmax ks).mariko_bek = ks.mariko_bek ∧
    (DeriveKeys dec g62 gmax ks).keyblobs = ks.keyblobs ∧
    (DeriveKeys dec g62 gmax ks).keyblob_key_sources = ks.keyblob_key_sources ∧
    (DeriveKeys dec g62 gmax ks).keyblob_mac_key_source = ks.keyblob_mac_key_source ∧
    (DeriveKeys dec g62 gmax ks).tsec_root_kek = ks.tsec_root_kek ∧
    (DeriveKeys dec g62 gmax ks).package1_mac_kek = ks.package1_mac_kek ∧
    (DeriveKeys dec g62 gmax ks).package1_kek = ks.package1_kek ∧
    (DeriveKeys dec g62 gmax ks).tsec_auth_signatures = ks.tsec_auth_signatures ∧
    (DeriveKeys dec g62 gmax ks).tsec_root_keys = ks.tsec_root_keys ∧
    (DeriveKeys dec g62 gmax ks).master_kek_sources = ks.master_kek_sources ∧
    (DeriveKeys dec g62 gmax ks).mariko_master_kek_sources = ks.mariko_master_kek_sources ∧
    (DeriveKeys dec g62 gmax ks).master_key_source = ks.master_key_source ∧
    (DeriveKeys dec g62 gmax ks).package1_mac_keys = ks.package1_mac_keys ∧
    (DeriveKeys dec g62 gmax ks).package2_keys = ks.package2_keys ∧
    (DeriveKeys dec g62 gmax ks).package2_key_source = ks.package2_key_source ∧
    (DeriveKeys dec g62 gmax ks).per_console_key_source = ks.per_console_key_source ∧
    (DeriveKeys dec g62 gmax ks).aes_kek_generation_source = ks.aes_kek_generation_source ∧
    (DeriveKeys dec g62 gmax ks).aes_key_generation_source = ks.aes_key_generation_source ∧
    (DeriveKeys dec g62 gmax ks).key_area_key_application_source = ks.key_area_key_application_source ∧
    (DeriveKeys dec g62 gmax ks).key_area_key_ocean_source = ks.key_area_key_ocean_source ∧
    (DeriveKeys dec g62 gmax ks).key_area_key_system_source = ks.key_area_key_system_source ∧
    (DeriveKeys dec g62 gmax ks).titlekek_source = ks.titlekek_source ∧
    (DeriveKeys dec g62 gmax ks).header_kek_source = ks.header_kek_source ∧
    (DeriveKeys dec g62 gmax ks).sd_card_kek_source = ks.sd_card_kek_source ∧
    (DeriveKeys dec g62 gmax ks).sd_card_nca_key_source = ks.sd_card_nca_key_source ∧
    (DeriveKeys dec g62 gmax ks).sd_card_save_key_source = ks.sd_card_save_key_source ∧
    (DeriveKeys dec g62 gmax ks).save_mac_kek_source = ks.save_mac_kek_source ∧
    (DeriveKeys dec g62 gmax ks).save_mac_key_source = ks.save_mac_key_source ∧
    (DeriveKeys dec g62 gmax ks).header_key_source = ks.header_key_source ∧
    (DeriveKeys dec g62 gmax ks).header_key = ks.header_key ∧
    (DeriveKeys dec g62 gmax ks).titlekeks = ks.titlekeks ∧
    (DeriveKeys dec g62 gmax ks).key_area_keys = ks.key_area_keys ∧
    (DeriveKeys dec g62 gmax ks).xci_header_key = ks.xci_header_key ∧
    (DeriveKeys dec g62 gmax ks).save_mac_key = ks.save_mac_key ∧
    (DeriveKeys dec g62 gmax ks).sd_card_keys = ks.sd_card_keys ∧
    (DeriveKeys dec g62 gmax ks).nca_hdr_fixed_key_moduli = ks.nca_hdr_fixed_key_moduli ∧
    (DeriveKeys dec g62 gmax ks).acid_fixed_key_moduli = ks.acid_fixed_key_moduli ∧
    (DeriveKeys dec g62 gmax ks).package2_fixed_key_modulus = ks.package2_fixed_key_modulus :=
  ⟨rfl, rfl, rfl, rfl, rfl, rfl, rfl, rfl, rfl, rfl, rfl, rfl, rfl, rfl, rfl,
    rfl, rfl, rfl, rfl, rfl, rfl, rfl, rfl, rfl, rfl, rfl, rfl, rfl, rfl, rfl,
    rfl, rfl, rfl, rfl, rfl, rfl, rfl, rfl, rfl, rfl, rfl, rfl, rfl⟩

/-!
Helper lemmas for C8: a second run of `DeriveKeys` recomputes each derived
slot from the same (untouched) inputs, so it reproduces the first run's
output field by field.
-/

theorem derivedKeyblobKeys_idem (dec : Block → Block → Block)
    (g62 gmax : Nat) (ks : KeySet) :
    derivedKeyblobKeys dec g62 (DeriveKeys dec g62 gmax ks) =
      derivedKeyblobKeys dec g62 ks := by
  funext g
  simp only [derivedKeyblobKeys, DeriveKeys]
  split_ifs <;> rfl

theorem derivedKeyblobMacKeys_idem (dec : Block → Block → Block)
    (g62 gmax : Nat) (ks : KeySet) :
    derivedKeyblobMacKeys dec g62 (DeriveKeys dec g62 gmax ks) =
      derivedKeyblobMacKeys dec g62 ks := by
  funext g
  simp only [derivedKeyblobMacKeys, DeriveKeys]
  split_ifs <;> rfl

theorem derivedDeviceKey_idem (dec : Block → Block → Block)
    (g62 gmax : Nat) (ks : KeySet) :
    derivedDeviceKey dec g62 (DeriveKeys dec g62 gmax ks) =
      derivedDeviceKey dec g62 ks := by
  simp only [derivedDeviceKey, DeriveKeys]
  split_ifs <;> rfl

theorem derivedPackage1Keys_idem (dec : Block → Block → Block)
    (g62 gmax : Nat) (ks : KeySet) :
    derivedPackage1Keys g62 (DeriveKeys dec g62 gmax ks) =
      derivedPackage1Keys g62 ks := by
  funext g
  simp only [derivedPackage1Keys, DeriveKeys]
  split_ifs <;> rfl

/-- Projection fact used below: `DeriveKeys` leaves `master_key_source`
untouched. -/
theorem DeriveKeys_master_key_source (dec : Block → Block → Block)
    (g62 gmax : Nat) (ks : KeySet) :
    (DeriveKeys dec g62 gmax ks).master_key_source = ks.master_key_source :=
  rfl

/-- Projection fact used below: the `master_keys` slots of a derived
`KeySet` are exactly `derivedMasterKeys`. -/
theorem DeriveKeys_master_keys (dec : Block → Block → Block)
    (g62 gmax : Nat) (ks : KeySet) :
    (DeriveKeys dec g62 gmax ks).master_keys =
      derivedMasterKeys dec g62 gmax ks :=
  rfl

theorem derivedMasterKeks_idem (dec : Block → Block → Block)
    (g62 gmax : Nat) (ks : KeySet) :
    derivedMasterKeks dec g62 gmax (DeriveKeys dec g62 gmax ks) =
      derivedMasterKeks dec g62 gmax ks := by
  funext g
  simp only [derivedMasterKeks, derivedMasterKeksLegacy, DeriveKeys]
  split_ifs with h1 h2 <;> rfl

theorem derivedMasterKeys_idem (dec : Block → Block → Block)
    (g62 gmax : Nat) (ks : KeySet) :
    derivedMasterKeys dec g62 gmax (DeriveKeys dec g62 gmax ks) =
      derivedMasterKeys dec g62 gmax ks := by
  funext g
  simp only [derivedMasterKeys, derivedMasterKeks_idem,
    DeriveKeys_master_key_source, DeriveKeys_master_keys]
  split_ifs <;> rfl

/-- C8: running `DeriveKeys` twice in succession, with no intervening change
to the registry, produces exactly the state of running it once: every stage
recomputes its slot from inputs the first run did not modify. -/
theorem derive_keys_idempotent (dec : Block → Block → Block)
    (g62 gmax : Nat) (ks : KeySet) :
    DeriveKeys dec g62 gmax (DeriveKeys dec g62 gmax ks) =
      DeriveKeys dec g62 gmax ks := by
  calc DeriveKeys dec g62 gmax (DeriveKeys dec g62 gmax ks)
      = { DeriveKeys dec g62 gmax ks with
          keyblob_keys := derivedKeyblobKeys dec g62 (DeriveKeys dec g62 gmax ks)
          keyblob_mac_keys := derivedKeyblobMacKeys dec g62 (DeriveKeys dec g62 gmax ks)
          device_key := derivedDeviceKey dec g62 (DeriveKeys dec g62 gmax ks)
          package1_keys := derivedPackage1Keys g62 (DeriveKeys dec g62 gmax ks)
          master_keks := derivedMasterKeks dec g62 gmax (DeriveKeys dec g62 gmax ks)
          master_keys := derivedMasterKeys dec g62 gmax (DeriveKeys dec g62 gmax ks) } := rfl
    _ = { DeriveKeys dec g62 gmax ks with
          keyblob_keys := derivedKeyblobKeys dec g62 ks
          keyblob_mac_keys := derivedKeyblobMacKeys dec g62 ks
          device_key := derivedDeviceKey dec g62 ks
          package1_keys := derivedPackage1Keys g62 ks
          master_keks := derivedMasterKeks dec g62 gmax ks
          master_keys := derivedMasterKeys dec g62 gmax ks } := by
        rw [derivedKeyblobKeys_idem, derivedKeyblobMacKeys_idem,
          derivedDeviceKey_idem, derivedPackage1Keys_idem,
          derivedMasterKeks_idem, derivedMasterKeys_idem]
    _ = DeriveKeys dec g62 gmax ks := rfl

/-!
Parser infrastructure: every loop iteration of `ProcessKeyValueFile`
advances the offset by at least one character, so `buf.length` fuel
suffices and `parseKVGo` is fuel-insensitive above that bound.
-/

theorem dropWhileLen {α : Type} (p : α → Bool) :
    ∀ l : List α, (l.dropWhile p).length ≤ l.length := by
  intro l
  induction l with
  | nil => simp [List.dropWhile]
  | cons c cs ih =>
    by_cases h : p c
    · simp only [List.dropWhile_cons, h, if_true]
      exact Nat.le_succ_of_le ih
    · simp [List.dropWhile_cons, h]

theorem scanKey_rest_length :
    ∀ (l k r : List Char), scanKey l = some (k, r) → r.length ≤ l.length := by
  intro l
  induction l with
  | nil => intro k r h; simp [scanKey] at h
  | cons c cs ih =>
    intro k r h
    simp only [scanKey] at h
    split_ifs at h with h1 h2 h3 h4
    · simp only [Option.some.injEq, Prod.mk.injEq] at h
      obtain ⟨-, rfl⟩ := h
      exact Nat.le_refl _
    · rcases hsc : scanKey cs with - | ⟨k0, r0⟩
      · simp only [hsc] at h
        exact absurd h (by simp)
      · simp only [hsc, Option.some.injEq, Prod.mk.injEq] at h
        obtain ⟨-, rfl⟩ := h
        exact Nat.le_succ_of_le (ih _ _ hsc)
    · rcases hsc : scanKey cs with - | ⟨k0, r0⟩
      · simp only [hsc] at h
        exact absurd h (by simp)
      · simp only [hsc, Option.some.injEq, Prod.mk.injEq] at h
        obtain ⟨-, rfl⟩ := h
        exact Nat.le_succ_of_le (ih _ _ hsc)

theorem consumeDelim_rest_length :
    ∀ (l r : List Char), consumeDelim l = some r → r.length < l.length := by
  intro l r h
  cases l with
  | nil => simp [consumeDelim] at h
  | cons d rs =>
    simp only [consumeDelim] at h
    split_ifs at h with h1
    · simp only [Option.some.injEq] at h
      subst h
      exact Nat.lt_succ_self _
    · rcases hdw : rs.dropWhile isSpaceTab with - | ⟨e, es⟩
      · simp only [hdw] at h
        exact absurd h (by simp)
      · simp only [hdw] at h
        split_ifs at h with h2
        simp only [Option.some.injEq] at h
        subst h
        have h3 : (e :: es).length ≤ rs.length := by
          rw [← hdw]; exact dropWhileLen isSpaceTab rs
        calc es.length < (e :: es).length := Nat.lt_succ_self _
          _ ≤ rs.length := h3
          _ < (d :: rs).length := Nat.lt_succ_self _

theorem parseStep_skipChar_length :
    ∀ (buf r : List Char), parseStep buf = .skipChar r → r.length < buf.length := by
  intro buf r h
  cases buf with
  | nil => simp [parseStep] at h
  | cons c cs =>
    simp only [parseStep] at h
    split_ifs at h with h1
    · simp only [PStep.skipChar.injEq] at h
      subst h
      exact Nat.lt_succ_self _
    · rcases hsc : scanKey (c :: cs) with - | ⟨k, rest⟩
      · simp only [hsc] at h
        exact absurd h (by simp)
      · simp only [hsc] at h
        rcases hcd : consumeDelim rest with - | rest2
        · simp only [hcd] at h
          exact absurd h (by simp)
        · simp only [hcd] at h
          split_ifs at h with h2
          rcases hdw : rest2.dropWhile isSpaceTab with - | ⟨v0, vs⟩
          · simp only [hdw] at h
            exact absurd h (by simp)
          · simp only [hdw] at h
            exact absurd h (by simp)

theorem parseStep_pair_length :
    ∀ (buf k v : List Char) (ok : Bool) (r : List Char),
      parseStep buf = .pair k v ok r → r.length < buf.length := by
  intro buf k v ok r h
  cases buf with
  | nil => simp [parseStep] at h
  | cons c cs =>
    simp only [parseStep] at h
    split_ifs at h with h1
    · rcases hsc : scanKey (c :: cs) with - | ⟨k0, rest⟩
      · simp only [hsc] at h
        exact absurd h (by simp)
      · simp only [hsc] at h
        rcases hcd : consumeDelim rest with - | rest2
        · simp only [hcd] at h
          exact absurd h (by simp)
        · simp only [hcd] at h
          split_ifs at h with h2
          rcases hdw : rest2.dropWhile isSpaceTab with - | ⟨v0, vs⟩
          · simp only [hdw] at h
            exact absurd h (by simp)
          · simp only [hdw, PStep.pair.injEq] at h
            obtain ⟨-, -, -, rfl⟩ := h
            have e1 : ((v0 :: vs).dropWhile (fun x => !isValEnd x)).length ≤
                (v0 :: vs).length :=
              dropWhileLen _ (v0 :: vs)
            have e2 : (v0 :: vs).length ≤ rest2.length := by
              rw [← hdw]; exact dropWhileLen isSpaceTab rest2
            have e3 : rest2.length < rest.length :=
              consumeDelim_rest_length rest rest2 hcd
            have e4 : rest.length ≤ (c :: cs).length :=
              scanKey_rest_length (c :: cs) k0 rest hsc
            omega

theorem parseKVGo_congr :
    ∀ (f1 f2 : Nat) (buf : List Char), buf.length ≤ f1 → buf.length ≤ f2 →
      parseKVGo f1 buf = parseKVGo f2 buf := by
  intro f1
  induction f1 with
  | zero =>
    intro f2 buf h1 h2
    have hb : buf = [] := List.length_eq_zero.mp (Nat.le_zero.mp h1)
    subst hb
    cases f2 with
    | zero => rfl
    | succ f2 => simp [parseKVGo, parseStep]
  | succ f1 ih =>
    intro f2 buf h1 h2
    cases buf with
    | nil =>
      cases f2 with
      | zero => simp [parseKVGo, parseStep]
      | succ f2 => simp [parseKVGo, parseStep]
    | cons c cs =>
      cases f2 with
      | zero => simp at h2
      | succ f2 =>
        simp only [parseKVGo]
        rcases hst : parseStep (c :: cs) with - | - | r | ⟨k, v, ok, r⟩
        · rfl
        · rfl
        · have hr := parseStep_skipChar_length _ _ hst
          simp only [List.length_cons] at h1 h2 hr
          exact ih f2 r (by omega) (by omega)
        · have hr := parseStep_pair_length _ _ _ _ _ hst
          simp only [List.length_cons] at h1 h2 hr
          cases ok
          · exact ih f2 r (by omega) (by omega)
          · exact congrArg _ (ih f2 r (by omega) (by omega))

theorem parseKVFile_abort (buf : List Char) (h : parseStep buf = .abort) :
    parseKVFile buf = [] := by
  cases buf with
  | nil => simp [parseKVFile, parseKVGo]
  | cons c cs => simp [parseKVFile, parseKVGo, h]

theorem parseKVFile_skip (buf r : List Char) (h : parseStep buf = .skipChar r) :
    parseKVFile buf = parseKVFile r := by
  cases buf with
  | nil => simp [parseStep] at h
  | cons c cs =>
    have hr := parseStep_skipChar_length _ _ h
    simp only [List.length_cons] at hr
    simp only [parseKVFile, List.length_cons, parseKVGo, h]
    exact parseKVGo_congr cs.length r.length r (by omega) (Nat.le_refl _)

theorem parseKVFile_pair_emit (buf k v r : List Char)
    (h : parseStep buf = .pair k v true r) :
    parseKVFile buf = (k, v) :: parseKVFile r := by
  cases buf with
  | nil => simp [parseStep] at h
  | cons c cs =>
    have hr := parseStep_pair_length _ _ _ _ _ h
    simp only [List.length_cons] at hr
    simp only [parseKVFile, List.length_cons, parseKVGo, h]
    exact congrArg _ (parseKVGo_congr cs.length r.length r (by omega) (Nat.le_refl _))

theorem parseKVFile_pair_skip (buf k v r : List Char)
    (h : parseStep buf = .pair k v false r) :
    parseKVFile buf = parseKVFile r := by
  cases buf with
  | nil => simp [parseStep] at h
  | cons c cs =>
    have hr := parseStep_pair_length _ _ _ _ _ h
    simp only [List.length_cons] at hr
    simp only [parseKVFile, List.length_cons, parseKVGo, h]
    exact parseKVGo_congr cs.length r.length r (by omega) (Nat.le_refl _)

/-!
Hex codec facts (for C4) and the parser test vectors (for C3 and C5).
-/

theorem decodeHexBytes_length (buf : List Char) :
    ∀ n, (decodeHexBytes buf n).length = n := by
  intro n
  induction n with
  | zero => rfl
  | succ n ih => simp [decodeHexBytes, ih]

theorem decodeHexBytes_eq_map (buf : List Char) :
    ∀ n, decodeHexBytes buf n =
      (List.range n).map
        (fun i => 16 * hexToI (buf.getD (2 * i) nul) +
          hexToI (buf.getD (2 * i + 1) nul)) := by
  intro n
  induction n with
  | zero => rfl
  | succ n ih => rw [decodeHexBytes, ih, List.range_succ]; simp

theorem hexToI_nonhex (c : Char) (h : isHexDigit c = false) : hexToI c = 0 := by
  unfold hexToI
  split_ifs with ha hb hc
  · exfalso; simp [isHexDigit, ha.1, ha.2] at h
  · exfalso; simp [isHexDigit, hb.1, hb.2] at h
  · exfalso; simp [isHexDigit, hc.1, hc.2] at h
  · rfl

/-- C4, counterexample to "it does not read past the end of src": two memory
windows that agree as C strings (both hold the two-character string "ab")
but differ in the byte after the terminator produce different outputs for
`size = 2`, because the decode loop of lines 209-211 runs over all `size`
pairs and fetches `src[3]` from beyond the string; the second output byte is
non-zero even though only one hex pair "fits". -/
theorem decode_hex_reads_past_terminator :
    (['a', 'b', nul, '1'].takeWhile (fun c => c ≠ nul) =
        ['a', 'b', nul, '2'].takeWhile (fun c => c ≠ nul)) ∧
      DecodeHex ['a', 'b', nul, '1'] 2 ≠ DecodeHex ['a', 'b', nul, '2'] 2 ∧
      DecodeHex ['a', 'b', nul, '1'] 2 = (true, [0xAB, 0x01]) := by
  refine ⟨by decide, by decide, by decide⟩

/-- C4 as amended: when `strlen(src) != 2 * N` the function emits its
non-fatal warning but still decodes exactly `N` pairs, reading `2 * N`
characters from the memory at `src` — past the string terminator when the
string is shorter; every character that is not a hex digit (the terminator
and anything beyond it included) decodes as the value 0; the function is
total: it always produces an `N`-byte result and never aborts. -/
theorem decode_hex_permissive (buf : List Char) (size : Nat) :
    ((DecodeHex buf size).1 = true ↔ cstrlen buf ≠ 2 * size) ∧
      (DecodeHex buf size).2.length = size ∧
      (DecodeHex buf size).2 =
        (List.range size).map
          (fun i => 16 * hexToI (buf.getD (2 * i) nul) +
            hexToI (buf.getD (2 * i + 1) nul)) ∧
      ∀ c : Char, isHexDigit c = false → hexToI c = 0 := by
  refine ⟨?_, decodeHexBytes_length buf size, decodeHexBytes_eq_map buf size,
    hexToI_nonhex⟩
  simp [DecodeHex, bne_iff_ne]

/-- Witness for C4's amended statement at concrete inputs: a 2-character
string decoded with `size = 3` warns and still yields 3 bytes, and the
non-hex character `z` decodes to 0. -/
theorem decode_hex_permissive_witness :
    (DecodeHex ['a', 'b'] 3).1 = true ∧
      (DecodeHex ['a', 'b'] 3).2.length = 3 ∧ hexToI 'z' = 0 :=
  ⟨(decode_hex_permissive ['a', 'b'] 3).1.mpr (by decide),
    (decode_hex_permissive ['a', 'b'] 3).2.1,
    (decode_hex_permissive ['a', 'b'] 3).2.2.2 'z' (by decide)⟩

/-- C3, counterexample: on the buffer `"key_a=0011,KEY_B = 2233\n"` the
parser emits NO pair at all — the value scan of lines 438-443 does not stop
at `,`, so the first value token is `0011,KEY_B`, which fails the hex check
of `ProcessKeyValue` (pair skipped), and the remaining ` = 2233\n` then
parses as an empty key, which aborts the buffer at line 422.  In particular
the output is not the two claimed pairs. -/
theorem comma_buffer_yields_no_pairs :
    parseKVFile ("key_a=0011,KEY_B = 2233\n".toList) = [] ∧
      parseKVFile ("key_a=0011,KEY_B = 2233\n".toList) ≠
        [(['k', 'e', 'y', '_', 'a'], ['0', '0', '1', '1']),
         (['k', 'e', 'y', '_', 'b'], ['2', '2', '3', '3'])] := by
  refine ⟨by decide, by decide⟩

/-- C3 as amended: with a newline separating the two entries (the comma is a
key/value delimiter, not a pair separator), the buffer
`"key_a=0011\nKEY_B = 2233\n"` parses to exactly the two pairs
`("key_a","0011")`, `("key_b","2233")` in that order, the uppercase key
folded to lowercase. -/
theorem newline_buffer_yields_two_pairs :
    parseKVFile ("key_a=0011\nKEY_B = 2233\n".toList) =
      [(['k', 'e', 'y', '_', 'a'], ['0', '0', '1', '1']),
       (['k', 'e', 'y', '_', 'b'], ['2', '2', '3', '3'])] := by
  decide

/-- C5: error scopes are asymmetric, and universally so in the rest of the
buffer.  A malformed key character (here `!`) or an embedded NUL mid-key
aborts the whole remaining buffer — whatever well-formed pairs `t` may hold,
only the pairs before the bad key (here `g=11`) are emitted.  A malformed
value — non-hex (here `0z`) or odd-length (here `012`) — skips only its own
pair: parsing continues on the rest of the buffer `t` exactly as if the bad
entry were absent. -/
theorem parser_error_scope_asymmetry (t : List Char) :
    parseKVFile ('g' :: '=' :: '1' :: '1' :: '\n' :: 'a' :: '!' :: t) =
        [(['g'], ['1', '1'])] ∧
      parseKVFile ('g' :: '=' :: '1' :: '1' :: '\n' :: 'a' :: nul :: t) =
        [(['g'], ['1', '1'])] ∧
      parseKVFile ('a' :: '=' :: '0' :: 'z' :: ' ' :: t) = parseKVFile t ∧
      parseKVFile ('a' :: '=' :: '0' :: '1' :: '2' :: ' ' :: t) =
        parseKVFile t := by
  have skipNl : ∀ rest : List Char, parseStep ('\n' :: rest) = .skipChar rest := by
    intro rest; simp [parseStep, isSkipChar]
  have skipSp : ∀ rest : List Char, parseStep (' ' :: rest) = .skipChar rest := by
    intro rest; simp [parseStep, isSkipChar]
  have gPair : ∀ rest : List Char,
      parseStep ('g' :: '=' :: '1' :: '1' :: '\n' :: rest) =
        .pair ['g'] ['1', '1'] true ('\n' :: rest) := by
    intro rest
    simp [parseStep, scanKey, consumeDelim, validValue, isSkipChar, isKeyDelim,
      isKeyChar, isValEnd, isSpaceTab, isHexDigit, nul, List.takeWhile_cons,
      List.dropWhile_cons]
  have bangAbort : ∀ rest : List Char,
      parseStep ('a' :: '!' :: rest) = .abort := by
    intro rest
    simp [parseStep, scanKey, isSkipChar, isKeyDelim, isKeyChar, nul]
  have nulAbort : ∀ rest : List Char,
      parseStep ('a' :: nul :: rest) = .abort := by
    intro rest
    simp [parseStep, scanKey, isSkipChar, isKeyDelim, isKeyChar, nul]
  have zPair : ∀ rest : List Char,
      parseStep ('a' :: '=' :: '0' :: 'z' :: ' ' :: rest) =
        .pair ['a'] ['0', 'z'] false (' ' :: rest) := by
    intro rest
    simp [parseStep, scanKey, consumeDelim, validValue, isSkipChar, isKeyDelim,
      isKeyChar, isValEnd, isSpaceTab, isHexDigit, nul, List.takeWhile_cons,
      List.dropWhile_cons]
  have oddPair : ∀ rest : List Char,
      parseStep ('a' :: '=' :: '0' :: '1' :: '2' :: ' ' :: rest) =
        .pair ['a'] ['0', '1', '2'] false (' ' :: rest) := by
    intro rest
    simp [parseStep, scanKey, consumeDelim, validValue, isSkipChar, isKeyDelim,
      isKeyChar, isValEnd, isSpaceTab, isHexDigit, nul, List.takeWhile_cons,
      List.dropWhile_cons]
  refine ⟨?_, ?_, ?_, ?_⟩
  · rw [parseKVFile_pair_emit _ _ _ _ (gPair ('a' :: '!' :: t)),
      parseKVFile_skip _ _ (skipNl ('a' :: '!' :: t)),
      parseKVFile_abort _ (bangAbort t)]
  · rw [parseKVFile_pair_emit _ _ _ _ (gPair ('a' :: nul :: t)),
      parseKVFile_skip _ _ (skipNl ('a' :: nul :: t)),
      parseKVFile_abort _ (nulAbort t)]
  · rw [parseKVFile_pair_skip _ _ _ _ (zPair t),
      parseKVFile_skip _ _ (skipSp t)]
  · rw [parseKVFile_pair_skip _ _ _ _ (oddPair t),
      parseKVFile_skip _ _ (skipSp t)]

/-- C10: `LoadTitleKey` refuses to register a pair exactly when the
rights-identifier key is malformed — its length is not 32 (the odd-length
check of lines 216-219 is subsumed: 32 is even) or it has a non-hex
character — and when the key is well formed the pair is decoded and
registered whatever the access-key value's length, a wrong value length
(lines 234-237) producing only the warning recorded in the first
component. -/
theorem load_title_key_registration (key value : List Char) :
    ((LoadTitleKey key value).isSome = true ↔
        key.length = 32 ∧ key.all isHexDigit = true) ∧
      (key.length = 32 → key.all isHexDigit = true →
        LoadTitleKey key value =
          some (value.length != 32, (DecodeHex key 16).2,
            (DecodeHex value 16).2)) := by
  constructor
  · unfold LoadTitleKey
    split_ifs with ha hb hc
    · simp only [Option.isSome_none, Bool.false_eq_true, false_iff]
      rintro ⟨h32, -⟩
      rw [h32] at ha
      exact absurd ha (by decide)
    · simp only [Option.isSome_none, Bool.false_eq_true, false_iff]
      rintro ⟨h32, -⟩
      rw [h32] at hb
      exact absurd hb (by decide)
    · simp only [Option.isSome_none, Bool.false_eq_true, false_iff]
      rintro ⟨-, hall⟩
      rw [List.all_eq_true] at hall
      rw [List.any_eq_true] at hc
      obtain ⟨x, hx, hbad⟩ := hc
      rw [hall x hx] at hbad
      exact absurd hbad (by decide)
    · simp only [Option.isSome_some, true_iff]
      constructor
      · by_contra hne
        exact hb (by simpa using hne)
      · rw [List.all_eq_true]
        intro x hx
        by_contra hbad
        exact hc (List.any_eq_true.mpr ⟨x, hx, by simpa using hbad⟩)
  · intro h1 h2
    have h3 : (key.any fun c => !isHexDigit c) = false := by
      rw [List.any_eq_false]
      intro x hx
      rw [List.all_eq_true] at h2
      simp [h2 x hx]
    simp [LoadTitleKey, h1, h3]

/-- Witness for C10 at a concrete input: a well-formed 32-hex-character
rights id paired with a 2-character value is registered (with the
value-length warning set). -/
theorem load_title_key_registration_witness :
    LoadTitleKey (List.replicate 32 '0') ['0', '0'] =
      some ((['0', '0'] : List Char).length != 32,
        (DecodeHex (List.replicate 32 '0') 16).2,
        (DecodeHex ['0', '0'] 16).2) :=
  (load_title_key_registration (List.replicate 32 '0') ['0', '0']).2
    (by decide) (by decide)

end Hac2l
